import Mathlib

set_option maxRecDepth 100000

/-!
Verification development for the sentrel event-ingestion gateway.

The Python sources under `src/` are shallowly embedded below: pure
functions become Lean functions, JSON values become the inductive
`Sentrel.JVal`, byte strings become `List Nat` (one entry per byte),
Python exceptions become `Except String`.  Machine reals do not occur in
the verified fragment; timestamps are modelled at integer millisecond
precision, which is exact for the integer timestamps the claims use.
-/

namespace Sentrel

/-- JSON-like dynamic value, the model of the Python objects produced by
`orjson.loads` and stored in dict-valued fields.  Objects are modelled
as association lists in insertion order, numbers as integers (the claims
only involve integral numbers). -/
inductive JVal where
  | null : JVal
  | bool (b : Bool) : JVal
  | int (n : Int) : JVal
  | str (s : String) : JVal
  | arr (xs : List JVal) : JVal
  | obj (kvs : List (String × JVal)) : JVal
deriving Repr

/-- Python truthiness of a value: `None`, `False`, `0`, `""`, `[]`, and
an empty dict are falsy, everything else is truthy. -/
def JVal.truthy : JVal → Bool
  | .null => false
  | .bool b => b
  | .int n => n != 0
  | .str s => s != ""
  | .arr xs => !xs.isEmpty
  | .obj kvs => !kvs.isEmpty

/-- Recognizer for the Python `None` value. -/
def JVal.isNull : JVal → Bool
  | .null => true
  | _ => false

/-- Python `dict.get(k)` on an association list: the first binding of
`k`, or `None` when absent. -/
def lookupJ (kvs : List (String × JVal)) (k : String) : Option JVal :=
  List.lookup k kvs

/-- Python `d.get(k, default)` on an association list. -/
def getJD (kvs : List (String × JVal)) (k : String) (dflt : JVal) : JVal :=
  (lookupJ kvs k).getD dflt

/-!
## Envelope decoder (`src/build/lib/src/receiver/envelope_parser.py`)

`EnvelopeParser.parse` splits the raw body on the newline byte `0x0A`
and `_extract_item_payload` then reassembles an item payload from the
line slices.  Bytes are modelled as `List Nat`.
-/

namespace EnvelopeParser

/-- The newline byte. -/
def nl : Nat := 10

/-- The loop of `_extract_item_payload` for an item header that carries
a `length` field: walk the line slices, re-inserting one newline byte
after every fully consumed line, until `length` bytes are accumulated or
the lines run out.  Returns the payload and the number of lines
consumed, exactly as the Python loop does. -/
def extract_len_loop (remaining : Nat) : List (List Nat) → List Nat × Nat
  | [] => ([], 0)
  | part :: rest =>
    if remaining ≤ part.length then
      (part.take remaining, 1)
    else
      let r := extract_len_loop (remaining - part.length - 1) rest
      (part ++ nl :: r.1, r.2 + 1)

/-- `EnvelopeParser._extract_item_payload`: with a `length` header read
that many bytes from the line slices (re-adding newlines), otherwise
return the single next line.  `lines` are the slices of the raw body
split on `0x0A`, `start_index` the index of the first payload line. -/
def extract_item_payload (length : Option Nat) (lines : List (List Nat))
    (start_index : Nat) : List Nat × Nat :=
  if lines.length ≤ start_index then ([], 0)
  else
    match length with
    | some n => extract_len_loop n (lines.drop start_index)
    | none => ((lines.drop start_index).headD [], 1)

/-- Join line slices back into a byte string with a newline after every
line (the byte stream the extraction loop effectively reads). -/
def joinNL : List (List Nat) → List Nat
  | [] => []
  | part :: rest => part ++ nl :: joinNL rest

/-- Join line slices with newlines between them (the inverse of
splitting the raw body on newlines). -/
def joinLines (lines : List (List Nat)) : List Nat :=
  [nl].intercalate lines

end EnvelopeParser

/-!
## Python `datetime` model

`datetime` values are modelled at millisecond precision: `ms` is the
count of milliseconds since the Unix epoch (UTC), `tzMin` the UTC offset
in minutes carried by an aware value (`none` for naive values such as
the results of `datetime.utcnow()` / `datetime.utcfromtimestamp`).
Integer source timestamps are represented exactly in this model.
-/

/-- Model of a Python `datetime` value. -/
structure DT where
  ms : Int
  tzMin : Option Int
deriving Repr, DecidableEq

/-- Civil date (year, month, day) of a day count relative to 1970-01-01
(proleptic Gregorian calendar). -/
def civilFromDays (days : Int) : Int × Int × Int :=
  let z := days + 719468
  let era : Int := z.fdiv 146097
  let doe : Int := z - era * 146097
  let yoe : Int := (doe - doe.fdiv 1460 + doe.fdiv 36524 - doe.fdiv 146096).fdiv 365
  let y : Int := yoe + era * 400
  let doy : Int := doe - (365 * yoe + yoe.fdiv 4 - yoe.fdiv 100)
  let mp : Int := (5 * doy + 2).fdiv 153
  let d : Int := doy - (153 * mp + 2).fdiv 5 + 1
  let m : Int := mp + (if mp < 10 then 3 else -9)
  (y + (if m ≤ 2 then 1 else 0), m, d)

/-- Day count relative to 1970-01-01 of a civil date. -/
def daysFromCivil (y m d : Int) : Int :=
  let y' := y - (if m ≤ 2 then 1 else 0)
  let era : Int := y'.fdiv 400
  let yoe : Int := y' - era * 400
  let doy : Int := (153 * (m + (if m > 2 then -3 else 9)) + 2).fdiv 5 + d - 1
  let doe : Int := yoe * 365 + yoe.fdiv 4 - yoe.fdiv 100 + doy
  era * 146097 + doe - 719468

/-- Zero-pad a number to two digits. -/
def pad2 (n : Nat) : String :=
  if n < 10 then "0" ++ toString n else toString n

/-- Zero-pad a number to four digits. -/
def pad4 (n : Nat) : String :=
  if n < 10 then "000" ++ toString n
  else if n < 100 then "00" ++ toString n
  else if n < 1000 then "0" ++ toString n
  else toString n

/-- Zero-pad a number to six digits. -/
def pad6 (n : Nat) : String :=
  if n < 10 then "00000" ++ toString n
  else if n < 100 then "0000" ++ toString n
  else if n < 1000 then "000" ++ toString n
  else if n < 10000 then "00" ++ toString n
  else if n < 100000 then "0" ++ toString n
  else toString n

/-- `datetime.isoformat()`: render the civil fields, append the
microsecond part only when non-zero, and append the UTC offset only for
aware values.  Naive values render with no offset suffix. -/
def DT.isoformat (dt : DT) : String :=
  let localMs : Int := dt.ms + (match dt.tzMin with | some o => o * 60000 | none => 0)
  let days : Int := localMs.fdiv 86400000
  let rem : Nat := (localMs.emod 86400000).toNat
  let ymd := civilFromDays days
  let hh := rem / 3600000
  let mi := rem / 60000 % 60
  let ss := rem / 1000 % 60
  let micro := rem % 1000 * 1000
  pad4 ymd.1.toNat ++ "-" ++ pad2 ymd.2.1.toNat ++ "-" ++ pad2 ymd.2.2.toNat ++
    "T" ++ pad2 hh ++ ":" ++ pad2 mi ++ ":" ++ pad2 ss ++
    (if micro = 0 then "" else "." ++ pad6 micro) ++
    (match dt.tzMin with
     | none => ""
     | some o =>
       (if o < 0 then "-" else "+") ++ pad2 (o.natAbs / 60) ++ ":" ++
         pad2 (o.natAbs % 60))

/-- `datetime.utcfromtimestamp` at millisecond precision: a naive value
holding the given epoch milliseconds. -/
def utcfromtimestampMs (ms : Int) : DT := ⟨ms, none⟩

/-- Gregorian leap-year test. -/
def isLeap (y : Int) : Bool :=
  y.emod 4 == 0 && (y.emod 100 != 0 || y.emod 400 == 0)

/-- Number of days in a month. -/
def daysInMonth (y : Int) (m : Nat) : Nat :=
  if m = 2 then (if isLeap y then 29 else 28)
  else if m = 4 ∨ m = 6 ∨ m = 9 ∨ m = 11 then 30
  else 31

/-- Read exactly `n` decimal digits from the front of a character list. -/
def readDigits : Nat → List Char → Option (Nat × List Char)
  | 0, cs => some (0, cs)
  | n + 1, c :: cs =>
    if c.isDigit then
      match readDigits n cs with
      | some (v, rest) => some ((c.toNat - 48) * 10 ^ n + v, rest)
      | none => none
    else none
  | _ + 1, [] => none

/-- Parse the optional fractional-second part: a dot followed by exactly
three or six digits (the forms `datetime.fromisoformat` accepts),
yielding milliseconds.  Sub-millisecond fractions are outside the model
and rejected. -/
def readFraction : List Char → Option (Nat × List Char)
  | '.' :: cs =>
    match readDigits 6 cs with
    | some (v, rest) => if v % 1000 = 0 then some (v / 1000, rest) else none
    | none =>
      match readDigits 3 cs with
      | some (v, rest) => some (v, rest)
      | none => none
  | cs => some (0, cs)

/-- Parse the optional `±HH:MM` UTC offset, in minutes. -/
def readOffset : List Char → Option (Option Int × List Char)
  | [] => some (none, [])
  | c :: cs =>
    if c = '+' ∨ c = '-' then
      match readDigits 2 cs with
      | some (oh, rest) =>
        match rest with
        | ':' :: rest' =>
          match readDigits 2 rest' with
          | some (om, rest'') =>
            if oh < 24 ∧ om < 60 then
              some (some ((if c = '-' then -1 else 1) * (oh * 60 + om : Nat)),
                rest'')
            else none
          | none => none
        | _ => none
      | none => none
    else none

/-- Parse the `HH:MM[:SS[.fff[fff]]][±HH:MM]` time part, yielding the
millisecond count within the day and the offset. -/
def readTime (cs : List Char) : Option (Nat × Option Int) :=
  match readDigits 2 cs with
  | some (hh, ':' :: cs1) =>
    match readDigits 2 cs1 with
    | some (mi, cs2) =>
      let secPart : Option (Nat × Nat × List Char) :=
        match cs2 with
        | ':' :: cs3 =>
          match readDigits 2 cs3 with
          | some (ss, cs4) =>
            match readFraction cs4 with
            | some (f, cs5) => some (ss, f, cs5)
            | none => none
          | none => none
        | _ => some (0, 0, cs2)
      match secPart with
      | some (ss, f, cs5) =>
        match readOffset cs5 with
        | some (off, []) =>
          if hh < 24 ∧ mi < 60 ∧ ss < 60 then
            some (hh * 3600000 + mi * 60000 + ss * 1000 + f, off)
          else none
        | _ => none
      | none => none
    | none => none
  | _ => none

/-- `datetime.fromisoformat` on the `YYYY-MM-DD[ T HH:MM[:SS[.frac]]]
[±HH:MM]` grammar (separator `T` or space).  Returns `none` exactly when
Python raises `ValueError`. -/
def fromisoformat (s : String) : Option DT :=
  match readDigits 4 s.data with
  | some (y, '-' :: cs1) =>
    match readDigits 2 cs1 with
    | some (mo, '-' :: cs2) =>
      match readDigits 2 cs2 with
      | some (d, cs3) =>
        if 1 ≤ y ∧ y ≤ 9999 ∧ 1 ≤ mo ∧ mo ≤ 12 ∧ 1 ≤ d ∧
            d ≤ daysInMonth (y : Int) mo then
          let dayMs : Int := daysFromCivil (y : Int) (mo : Int) (d : Int) * 86400000
          match cs3 with
          | [] => some ⟨dayMs, none⟩
          | sep :: cs4 =>
            if sep = 'T' ∨ sep = ' ' then
              match readTime cs4 with
              | some (tms, off) =>
                match off with
                | none => some ⟨dayMs + tms, none⟩
                | some o => some ⟨dayMs + tms - o * 60000, some o⟩
              | none => none
            else none
        else none
      | _ => none
    | _ => none
  | _ => none

/-- Replace every `'Z'` character by `"+00:00"` in a character list. -/
def replaceZchars : List Char → List Char
  | [] => []
  | c :: cs =>
    (if c = 'Z' then ['+', '0', '0', ':', '0', '0'] else [c]) ++ replaceZchars cs

/-- Python `s.replace("Z", "+00:00")`: every occurrence of `"Z"` (a
single-character pattern, so occurrences cannot overlap) is replaced. -/
def replaceZ (s : String) : String :=
  ⟨replaceZchars s.data⟩

namespace EventTransformer

/-- The dynamic values `EventTransformer._normalize_timestamp` can see:
`None`, a number (integer in this model), or a string.  The `datetime`
branch of the Python code is unreachable from the pipeline and not
modelled. -/
inductive TsVal where
  | none : TsVal
  | num (t : Int) : TsVal
  | str (s : String) : TsVal
deriving Repr, DecidableEq

/-- `EventTransformer._normalize_timestamp`: numbers above `1e12` are
epoch milliseconds (divided by 1000 before `utcfromtimestamp`, which is
exact at millisecond precision), other numbers epoch seconds; strings go
through `fromisoformat` after replacing every `"Z"` with `"+00:00"`;
`None` and parse failures yield `datetime.utcnow()`, the `nowMs`
parameter. -/
def normalize_timestamp (nowMs : Int) : TsVal → DT
  | .none => utcfromtimestampMs nowMs
  | .num t =>
    if t > 10 ^ 12 then utcfromtimestampMs t else utcfromtimestampMs (t * 1000)
  | .str s =>
    match fromisoformat (replaceZ s) with
    | some dt => dt
    | none => utcfromtimestampMs nowMs

end EventTransformer

end Sentrel

namespace Sentrel

/-!
## SHA-256 (model of `hashlib.sha256`)

A byte-level implementation of FIPS 180-4 SHA-256 over `List Nat`
(each entry one byte), used by `EventTransformer._transform_user` for
email hashing.  32-bit words are `Nat` reduced modulo `2 ^ 32`.
-/

namespace SHA256

/-- 32-bit right rotation. -/
def rotr (x n : Nat) : Nat :=
  ((x >>> n) ||| (x <<< (32 - n))) % 4294967296

/-- The σ0 message-schedule function. -/
def ssig0 (x : Nat) : Nat := rotr x 7 ^^^ rotr x 18 ^^^ (x >>> 3)

/-- The σ1 message-schedule function. -/
def ssig1 (x : Nat) : Nat := rotr x 17 ^^^ rotr x 19 ^^^ (x >>> 10)

/-- The Σ0 compression function. -/
def bsig0 (x : Nat) : Nat := rotr x 2 ^^^ rotr x 13 ^^^ rotr x 22

/-- The Σ1 compression function. -/
def bsig1 (x : Nat) : Nat := rotr x 6 ^^^ rotr x 11 ^^^ rotr x 25

/-- The Ch bitwise choice function. -/
def chF (x y z : Nat) : Nat := (x &&& y) ^^^ ((x ^^^ 4294967295) &&& z)

/-- The Maj bitwise majority function. -/
def majF (x y z : Nat) : Nat := (x &&& y) ^^^ (x &&& z) ^^^ (y &&& z)

/-- The 64 round constants. -/
def K : List Nat := [
  1116352408, 1899447441, 3049323471,
  3921009573, 961987163, 1508970993,
  2453635748, 2870763221, 3624381080,
  310598401, 607225278, 1426881987,
  1925078388, 2162078206, 2614888103,
  3248222580, 3835390401, 4022224774,
  264347078, 604807628, 770255983,
  1249150122, 1555081692, 1996064986,
  2554220882, 2821834349, 2952996808,
  3210313671, 3336571891, 3584528711,
  113926993, 338241895, 666307205,
  773529912, 1294757372, 1396182291,
  1695183700, 1986661051, 2177026350,
  2456956037, 2730485921, 2820302411,
  3259730800, 3345764771, 3516065817,
  3600352804, 4094571909, 275423344,
  430227734, 506948616, 659060556,
  883997877, 958139571, 1322822218,
  1537002063, 1747873779, 1955562222,
  2024104815, 2227730452, 2361852424,
  2428436474, 2756734187, 3204031479,
  3329325298]

/-- The initial hash state. -/
def H0 : List Nat := [
  1779033703, 3144134277, 1013904242,
  2773480762, 1359893119, 2600822924,
  528734635, 1541459225]

/-- Big-endian 32-bit words from bytes. -/
def bytesToWords : List Nat → List Nat
  | a :: b :: c :: d :: rest => (((a * 256 + b) * 256 + c) * 256 + d) :: bytesToWords rest
  | _ => []

/-- Extend the message schedule; the accumulator holds the words in
reverse order, so index `k` from the front is word `i - 1 - k`. -/
def extendWords : Nat → List Nat → List Nat
  | 0, rws => rws
  | n + 1, rws =>
    let nw := (ssig1 (rws.getD 1 0) + rws.getD 6 0 + ssig0 (rws.getD 14 0) +
      rws.getD 15 0) % 4294967296
    extendWords n (nw :: rws)

/-- The 64-entry message schedule of one 64-byte chunk. -/
def schedule (chunk : List Nat) : List Nat :=
  (extendWords 48 (bytesToWords chunk).reverse).reverse

/-- One compression round on the 8-word state. -/
def round (st : List Nat) (k w : Nat) : List Nat :=
  match st with
  | [a, b, c, d, e, f, g, h] =>
    let t1 := (h + bsig1 e + chF e f g + k + w) % 4294967296
    let t2 := (bsig0 a + majF a b c) % 4294967296
    [(t1 + t2) % 4294967296, a, b, c, (d + t1) % 4294967296, e, f, g]
  | st => st

/-- Compress one 64-byte chunk into the hash state. -/
def compress (h : List Nat) (chunk : List Nat) : List Nat :=
  let st := (K.zip (schedule chunk)).foldl (fun st kw => round st kw.1 kw.2) h
  (h.zip st).map (fun p => (p.1 + p.2) % 4294967296)

/-- Merkle-Damgard padding: `0x80`, zeros to 56 mod 64, then the bit
length as a 64-bit big-endian integer. -/
def pad (msg : List Nat) : List Nat :=
  let bitLen := msg.length * 8
  let zeros := (55 + 64 - msg.length % 64) % 64
  msg ++ 128 :: List.replicate zeros 0 ++
    [bitLen / 72057594037927936 % 256, bitLen / 281474976710656 % 256,
     bitLen / 1099511627776 % 256, bitLen / 4294967296 % 256,
     bitLen / 16777216 % 256, bitLen / 65536 % 256,
     bitLen / 256 % 256, bitLen % 256]

/-- Split a byte list into 64-byte chunks (fuel-driven recursion). -/
def chunksAux : Nat → List Nat → List (List Nat)
  | 0, _ => []
  | _ + 1, [] => []
  | n + 1, l => l.take 64 :: chunksAux n (l.drop 64)

/-- The 64-byte chunks of a byte list. -/
def chunks (l : List Nat) : List (List Nat) := chunksAux (l.length + 1) l

/-- The SHA-256 digest (32 bytes) of a byte list. -/
def digest (msg : List Nat) : List Nat :=
  (((chunks (pad msg)).foldl compress H0).map
    (fun w => [w / 16777216 % 256, w / 65536 % 256, w / 256 % 256, w % 256])).flatten

/-- One lowercase hexadecimal digit. -/
def hexDigit (n : Nat) : Char :=
  if n < 10 then Char.ofNat (48 + n) else Char.ofNat (87 + n)

/-- `hashlib.sha256(msg).hexdigest()`: the 64-character lowercase hex
rendering of the digest. -/
def hexdigest (msg : List Nat) : String :=
  ⟨((digest msg).map (fun b => [hexDigit (b / 16), hexDigit (b % 16)])).flatten⟩

end SHA256

/-- ASCII lowercasing of one character (the fragment of Python
`str.lower` exercised by ASCII emails). -/
def asciiLowerChar (c : Char) : Char :=
  if 'A' ≤ c ∧ c ≤ 'Z' then Char.ofNat (c.toNat + 32) else c

/-- ASCII lowercasing of a string. -/
def asciiLower (s : String) : String :=
  ⟨s.data.map asciiLowerChar⟩

/-- UTF-8 encoding of one character. -/
def charUtf8 (c : Char) : List Nat :=
  let n := c.toNat
  if n < 128 then [n]
  else if n < 2048 then [192 + n / 64, 128 + n % 64]
  else if n < 65536 then [224 + n / 4096, 128 + n / 64 % 64, 128 + n % 64]
  else [240 + n / 262144, 128 + n / 4096 % 64, 128 + n / 64 % 64, 128 + n % 64]

/-- Python `s.encode()`: the UTF-8 bytes of a string. -/
def utf8Encode (s : String) : List Nat :=
  (s.data.map charUtf8).flatten

end Sentrel

namespace Sentrel

/-!
## Python dynamic operations

Helpers modelling the Python operations the transformer performs on
dynamic (JSON-shaped) data, with `Except String` carrying the exception
name when the operation raises.
-/

/-- Python `v.get(k, dflt)`: association-list lookup on a dict, and
`AttributeError` on every non-dict value (including `None`). -/
def pyGet (v : JVal) (k : String) (dflt : JVal) : Except String JVal :=
  match v with
  | .obj kvs => .ok (getJD kvs k dflt)
  | _ => .error "AttributeError"

/-- Python `v[0]`: the head of a list, the first character of a string,
`KeyError` on a dict without an integer key, `IndexError` on empty
sequences, and `TypeError` on non-subscriptable values. -/
def pySubscript0 : JVal → Except String JVal
  | .arr (x :: _) => .ok x
  | .arr [] => .error "IndexError"
  | .str s =>
    match s.data with
    | c :: _ => .ok (.str ⟨[c]⟩)
    | [] => .error "IndexError"
  | .obj _ => .error "KeyError"
  | _ => .error "TypeError"

/-- Python `str(v)` as used by f-string interpolation.  Scalars are
rendered exactly; container rendering (Python would print their `repr`)
is abstracted, as no settled claim evaluates it. -/
def pyStrOf : JVal → String
  | .null => "None"
  | .bool true => "True"
  | .bool false => "False"
  | .int n => toString n
  | .str s => s
  | .arr _ => "[...]"
  | .obj _ => "\x7b...\x7d"

/-- Python `s.strip()` on the whitespace the claims exercise. -/
def pyStrip (s : String) : String :=
  ⟨((s.data.dropWhile Char.isWhitespace).reverse.dropWhile
    Char.isWhitespace).reverse⟩

/-- A `None`-or-string value as a document value (`None` maps to
`JVal.null`, which the final filter removes). -/
def optStrJ : Option String → JVal
  | some s => .str s
  | none => .null

/-!
## Event model (`src/src/receiver/event_parser.py`)

The pydantic models, post-validation: typed optional fields plus the
`extra = "allow"` catch-all bucket.  `timestamp` holds the raw numeric
value (seconds or milliseconds, as sent), exactly representable for the
integer timestamps the claims use.
-/

/-- `SentryUser`. -/
structure SentryUser where
  id : Option String := none
  email : Option String := none
  username : Option String := none
  ip_address : Option String := none
  name : Option String := none
deriving Repr, DecidableEq

/-- `SentryRequest`. -/
structure SentryRequest where
  url : Option String := none
  method : Option String := none
  headers : Option (List (String × String)) := none
  query_string : Option String := none
  data : Option JVal := none
  env : Option (List (String × String)) := none
deriving Repr

/-- `SentryEvent`: the decoded event record.  Dict-typed fields hold
association lists of dynamic values; `extras` is the `extra = "allow"`
bucket of unrecognized top-level fields. -/
structure SentryEvent where
  event_id : Option String := none
  timestamp : Option Int := none
  platform : Option String := none
  level : String := "error"
  logger : Option String := none
  transaction : Option String := none
  server_name : Option String := none
  release : Option String := none
  dist : Option String := none
  environment : Option String := some "production"
  message : Option String := none
  logentry : Option (List (String × JVal)) := none
  exception : Option (List (String × JVal)) := none
  user : Option SentryUser := none
  request : Option SentryRequest := none
  contexts : Option (List (String × JVal)) := none
  tags : Option (List (String × String)) := none
  extra : Option (List (String × JVal)) := none
  fingerprint : Option (List String) := none
  breadcrumbs : Option (List (String × JVal)) := none
  sdk : Option (List (String × JVal)) := none
  modules : Option (List (String × String)) := none
  extras : List (String × JVal) := []
deriving Repr

/-!
## Transformer (`src/src/etl/transformer.py`)
-/

namespace EventTransformer

/-- The guard `event.exception and event.exception.get("values")`
shared by the message/exception/stacktrace extractors: the truthy
`values` entry of a truthy exception dict, if any. -/
def excValues (e : SentryEvent) : Option JVal :=
  match e.exception with
  | some kvs =>
    if (JVal.obj kvs).truthy then
      let v := getJD kvs "values" .null
      if v.truthy then some v else none
    else none
  | none => none

/-- The logentry fallback of `_extract_message`: a truthy `logentry`
dict yields its `message` entry (default `""`), otherwise the literal
`"No message"`. -/
def logentryFallback (e : SentryEvent) : JVal :=
  match e.logentry with
  | some kvs =>
    if (JVal.obj kvs).truthy then getJD kvs "message" (.str "")
    else .str "No message"
  | none => .str "No message"

/-- `EventTransformer._extract_message`: priority exception, then
`message`, then `logentry` (returned verbatim, no `%s` substitution),
else `"No message"`. -/
def extract_message (e : SentryEvent) : Except String JVal := do
  match excValues e with
  | some vals =>
    let exc ← pySubscript0 vals
    let ty ← pyGet exc "type" (.str "Error")
    let v ← pyGet exc "value" (.str "")
    if v.truthy then
      pure (.str (pyStrOf ty ++ ": " ++ pyStrOf v))
    else
      pure ty
  | none =>
    match e.message with
    | some m => if m ≠ "" then pure (.str m) else pure (logentryFallback e)
    | none => pure (logentryFallback e)

/-- `EventTransformer._extract_exception_type`. -/
def extract_exception_type (e : SentryEvent) : Except String JVal := do
  match excValues e with
  | some vals =>
    let exc ← pySubscript0 vals
    pyGet exc "type" .null
  | none => pure .null

/-- `EventTransformer._extract_exception_value`. -/
def extract_exception_value (e : SentryEvent) : Except String JVal := do
  match excValues e with
  | some vals =>
    let exc ← pySubscript0 vals
    pyGet exc "value" .null
  | none => pure .null

/-- Render one stack frame as its one or two lines. -/
def render_frame (frame : JVal) : Except String (List String) := do
  match frame with
  | .obj f =>
    let filename := getJD f "filename" (.str "?")
    let lineno := getJD f "lineno" (.str "?")
    let fn := getJD f "function" (.str "?")
    let line1 := "  File \"" ++ pyStrOf filename ++ "\", line " ++
      pyStrOf lineno ++ ", in " ++ pyStrOf fn
    match lookupJ f "context_line" with
    | some c =>
      if c.truthy then
        match c with
        | .str s => pure [line1, "    " ++ pyStrip s]
        | _ => throw "AttributeError"
      else pure [line1]
    | none => pure [line1]
  | _ => throw "AttributeError"

/-- `EventTransformer._extract_stacktrace`: the first exception's frames
in reverse order, one or two lines per frame.  Iterating `reversed` over
a truthy non-list raises (`TypeError`, or `AttributeError` once a
non-dict frame is reached), as in Python. -/
def extract_stacktrace (e : SentryEvent) : Except String JVal := do
  match excValues e with
  | none => pure .null
  | some vals =>
    let exc ← pySubscript0 vals
    let st ← pyGet exc "stacktrace" (.obj [])
    let frames ← pyGet st "frames" (.arr [])
    if ¬frames.truthy then pure .null
    else
      match frames with
      | .arr fs => do
        let rendered ← fs.reverse.mapM render_frame
        pure (.str (String.intercalate "\n" rendered.flatten))
      | .str _ => throw "AttributeError"
      | .obj _ => throw "AttributeError"
      | _ => throw "TypeError"

/-- The 16-character email hash of `_transform_user`: the first 16 hex
characters of SHA-256 of the lowercased email bytes. -/
def email_hash (em : String) : String :=
  ⟨((SHA256.hexdigest (utf8Encode (asciiLower em))).data.take 16)⟩

/-- `EventTransformer._transform_user`: the non-empty user sub-fields,
with `email` hashed into `email_hash` and `ip_address` renamed `ip`. -/
def transform_user (e : SentryEvent) : List (String × JVal) :=
  match e.user with
  | none => []
  | some u =>
    (match u.id with
     | some s => if s ≠ "" then [("id", JVal.str s)] else []
     | none => []) ++
    (match u.email with
     | some s => if s ≠ "" then [("email_hash", JVal.str (email_hash s))] else []
     | none => []) ++
    (match u.username with
     | some s => if s ≠ "" then [("username", JVal.str s)] else []
     | none => []) ++
    (match u.ip_address with
     | some s => if s ≠ "" then [("ip", JVal.str s)] else []
     | none => [])

/-- Common body of the four context extractors
(`_extract_browser` / `_extract_os` / `_extract_device` /
`_extract_runtime`): fetch `contexts[ctxKey]` (default empty dict),
return empty on falsy, copy the listed truthy sub-fields in order, and
raise `AttributeError` on a truthy non-dict entry. -/
def extract_ctx (e : SentryEvent) (ctxKey : String) (keys : List String) :
    Except String (List (String × JVal)) := do
  match e.contexts with
  | none => pure []
  | some ctxs =>
    if ¬(JVal.obj ctxs).truthy then pure []
    else
      let c := getJD ctxs ctxKey (.obj [])
      if ¬c.truthy then pure []
      else
        match c with
        | .obj kvs =>
          pure (keys.filterMap (fun k =>
            let v := getJD kvs k .null
            if v.truthy then some (k, v) else none))
        | _ => throw "AttributeError"

/-- `EventTransformer._extract_browser`. -/
def extract_browser (e : SentryEvent) : Except String (List (String × JVal)) :=
  extract_ctx e "browser" ["name", "version"]

/-- `EventTransformer._extract_os`. -/
def extract_os (e : SentryEvent) : Except String (List (String × JVal)) :=
  extract_ctx e "os" ["name", "version"]

/-- `EventTransformer._extract_device`. -/
def extract_device (e : SentryEvent) : Except String (List (String × JVal)) :=
  extract_ctx e "device" ["family", "model", "brand"]

/-- `EventTransformer._extract_runtime`. -/
def extract_runtime (e : SentryEvent) : Except String (List (String × JVal)) :=
  extract_ctx e "runtime" ["name", "version"]

/-- `EventTransformer._transform_request`: `url` and `method` when
non-empty. -/
def transform_request (e : SentryEvent) : List (String × JVal) :=
  match e.request with
  | none => []
  | some r =>
    (match r.url with
     | some s => if s ≠ "" then [("url", JVal.str s)] else []
     | none => []) ++
    (match r.method with
     | some s => if s ≠ "" then [("method", JVal.str s)] else []
     | none => [])

/-- `EventTransformer._transform_sdk`: `name` and `version` when
truthy. -/
def transform_sdk (e : SentryEvent) : List (String × JVal) :=
  match e.sdk with
  | none => []
  | some kvs =>
    if ¬(JVal.obj kvs).truthy then []
    else
      (let v := getJD kvs "name" .null
       if v.truthy then [("name", v)] else []) ++
      (let v := getJD kvs "version" .null
       if v.truthy then [("version", v)] else [])

/-- A truthy optional string as a singleton fingerprint component. -/
def optTruthyStr : Option String → List JVal
  | some s => if s ≠ "" then [.str s] else []
  | none => []

/-- `EventTransformer._compute_fingerprint`: the source fingerprint when
truthy, else the truthy members of exception type, transaction-or-logger
(an `elif`), and platform, else the literal default. -/
def compute_fingerprint (e : SentryEvent) : Except String (List JVal) := do
  match e.fingerprint with
  | some fp =>
    if fp ≠ [] then pure (fp.map JVal.str)
    else compute_default_fingerprint e
  | none => compute_default_fingerprint e
where
  compute_default_fingerprint (e : SentryEvent) :
      Except String (List JVal) := do
    let et ← extract_exception_type e
    let c1 := if et.truthy then [et] else []
    let c2 :=
      match optTruthyStr e.transaction with
      | [] => optTruthyStr e.logger
      | l => l
    let c3 := optTruthyStr e.platform
    let components := c1 ++ c2 ++ c3
    if components.isEmpty then pure [.str "\x7b\x7b default \x7d\x7d"]
    else pure components

/-- The tags document value: `event.tags or` an empty dict, string
values kept as strings. -/
def tagsJ (e : SentryEvent) : List (String × JVal) :=
  match e.tags with
  | some l => l.map (fun p => (p.1, JVal.str p.2))
  | none => []

/-- The results of the fallible extraction steps of
`EventTransformer.transform`, in source order. -/
structure Extracted where
  msg : JVal
  et : JVal
  ev : JVal
  st : JVal
  br : List (String × JVal)
  osv : List (String × JVal)
  dv : List (String × JVal)
  rt : List (String × JVal)
  fp : List JVal

/-- The fallible extraction steps of `EventTransformer.transform`, run
in source order; the first raised exception propagates. -/
def extract_parts (e : SentryEvent) : Except String Extracted := do
  let msg ← extract_message e
  let et ← extract_exception_type e
  let ev ← extract_exception_value e
  let st ← extract_stacktrace e
  let br ← extract_browser e
  let osv ← extract_os e
  let dv ← extract_device e
  let rt ← extract_runtime e
  let fp ← compute_fingerprint e
  pure ⟨msg, et, ev, st, br, osv, dv, rt, fp⟩

/-- The document dict literal of `EventTransformer.transform`, filtered
of its top-level `None` values (and only those). -/
def assemble_document (e : SentryEvent) (project_id : Int) (nowMs : Int)
    (x : Extracted) : List (String × JVal) :=
  [("@timestamp", JVal.str (normalize_timestamp nowMs
      (match e.timestamp with | some t => .num t | none => .none)).isoformat),
   ("received_at", JVal.str (utcfromtimestampMs nowMs).isoformat),
   ("event_id", optStrJ e.event_id),
   ("project_id", JVal.int project_id),
   ("level", JVal.str e.level),
   ("platform", optStrJ e.platform),
   ("environment", JVal.str
     (match e.environment with
      | some s => if s ≠ "" then s else "production"
      | none => "production")),
   ("release", optStrJ e.release),
   ("transaction", optStrJ e.transaction),
   ("server_name", optStrJ e.server_name),
   ("logger", optStrJ e.logger),
   ("message", x.msg),
   ("exception_type", x.et),
   ("exception_value", x.ev),
   ("stacktrace", x.st),
   ("user", JVal.obj (transform_user e)),
   ("browser", JVal.obj x.br),
   ("os", JVal.obj x.osv),
   ("device", JVal.obj x.dv),
   ("runtime", JVal.obj x.rt),
   ("request", JVal.obj (transform_request e)),
   ("tags", JVal.obj (tagsJ e)),
   ("sdk", JVal.obj (transform_sdk e)),
   ("fingerprint", JVal.arr x.fp)].filter (fun p => !p.2.isNull)

/-- `EventTransformer.transform`: run the extractors and assemble the
document, dropping the top-level `None` values (and only those).
`nowMs` models the `datetime.utcnow()` wall clock read during the
call. -/
def transform (e : SentryEvent) (project_id : Int) (nowMs : Int) :
    Except String (List (String × JVal)) :=
  match extract_parts e with
  | .error err => .error err
  | .ok x => .ok (assemble_document e project_id nowMs x)

end EventTransformer

end Sentrel

namespace Sentrel

/-!
## Enricher (`src/src/etl/enricher.py`)

The GeoIP reader and the user-agent parser are external libraries; they
are abstracted as function parameters (`reader` maps an IP to the geo
dict a successful city lookup would build, `none` modelling a swallowed
lookup failure; `parse` models `user_agents.parse`).
-/

namespace EventEnricher

/-- The result of `user_agents.parse`. -/
structure UAParsed where
  browser_family : String
  browser_version : String
  os_family : String
  os_version : String
  device_family : String
  device_brand : Option String
  device_model : Option String

/-- Python dict assignment `d[k] = v`: replace the binding in place or
append a fresh one. -/
def setJ (kvs : List (String × JVal)) (k : String) (v : JVal) :
    List (String × JVal) :=
  if (List.lookup k kvs).isSome then
    kvs.map (fun p => if p.1 = k then (k, v) else p)
  else kvs ++ [(k, v)]

/-- `EventEnricher._is_private_ip`. -/
def is_private_ip (ip : String) : Bool :=
  if ip = "" then true
  else
    (["10.", "172.", "192.168.", "127.", "::1", "fe80:"].any
      (fun p => p.data.isPrefixOf ip.data)) ||
    (["localhost", "127.0.0.1", "::1"].contains ip)

/-- `EventEnricher._extract_user_agent`: the first case-insensitive
`User-Agent` header under the top-level `raw_event` key, else `None`. -/
def extract_user_agent (doc : List (String × JVal)) : Except String JVal := do
  let raw := getJD doc "raw_event" (.obj [])
  if ¬raw.truthy then pure .null
  else
    let req ← pyGet raw "request" (.obj [])
    let hdrs ← pyGet req "headers" (.obj [])
    match hdrs with
    | .obj hs =>
      match hs.find? (fun p => asciiLower p.1 = "user-agent") with
      | some p => pure p.2
      | none => pure .null
    | _ => throw "AttributeError"

/-- `EventEnricher._enrich_user_agent`: skip when the parser is
unavailable or `browser` and `os` are both truthy; otherwise look for a
user agent and, when one is found and parses to non-default families,
fill the missing `browser` / `os` / `device`.  Parser exceptions are
swallowed (the whole parse is inside `try`). -/
def enrich_user_agent (uaAvail : Bool) (parse : String → UAParsed)
    (doc : List (String × JVal)) : Except String (List (String × JVal)) := do
  if ¬uaAvail then pure doc
  else if (getJD doc "browser" .null).truthy ∧ (getJD doc "os" .null).truthy then
    pure doc
  else
    let ua ← extract_user_agent doc
    if ¬ua.truthy then pure doc
    else
      match ua with
      | .str s =>
        let p := parse s
        let d1 :=
          if ¬(getJD doc "browser" .null).truthy ∧ p.browser_family ≠ "Other" then
            setJ doc "browser" (.obj [("name", .str p.browser_family),
              ("version", if p.browser_version = "" then .null
                else .str p.browser_version)])
          else doc
        let d2 :=
          if ¬(getJD d1 "os" .null).truthy ∧ p.os_family ≠ "Other" then
            setJ d1 "os" (.obj [("name", .str p.os_family),
              ("version", if p.os_version = "" then .null
                else .str p.os_version)])
          else d1
        let d3 :=
          if ¬(getJD d2 "device" .null).truthy ∧ p.device_family ≠ "Other" then
            setJ d2 "device" (.obj [("family", .str p.device_family),
              ("brand", optStrJ p.device_brand),
              ("model", optStrJ p.device_model)])
          else d2
        pure d3
      | _ => pure doc

/-- `EventEnricher._enrich_geoip`: with a configured reader and a truthy
public `user.ip`, attach the geo dict of a successful city lookup;
failures are swallowed. -/
def enrich_geoip (reader : Option (String → Option (List (String × JVal))))
    (doc : List (String × JVal)) : Except String (List (String × JVal)) := do
  match reader with
  | none => pure doc
  | some lookup =>
    let user := getJD doc "user" (.obj [])
    let ip ← pyGet user "ip" .null
    if ¬ip.truthy then pure doc
    else
      match ip with
      | .str s =>
        if is_private_ip s then pure doc
        else
          match lookup s with
          | some geo => pure (setJ doc "geo" (.obj geo))
          | none => pure doc
      | _ => throw "AttributeError"

/-- `EventEnricher.enrich`: geo first, then user agent. -/
def enrich (reader : Option (String → Option (List (String × JVal))))
    (uaAvail : Bool) (parse : String → UAParsed)
    (doc : List (String × JVal)) : Except String (List (String × JVal)) := do
  let d1 ← enrich_geoip reader doc
  enrich_user_agent uaAvail parse d1

end EventEnricher

end Sentrel

namespace Sentrel

/-!
## Authenticator

`src/src/receiver/endpoints.py` constructs
`DSNAuth(allowed_keys=..., auth_required=...)`, but the module it
imports, `src/src/receiver/auth.py`, is not in the source tree; only a
stale build artifact (`src/build/lib/src/receiver/auth.py`, whose
`DSNAuth.__init__` does not accept `auth_required` and therefore cannot
be the imported module) and the tests are present.
-/

namespace DSNAuth

/-- The authenticator configuration taken by `DSNAuth.__init__`. -/
structure Config where
  allowed_keys : List String
  auth_required : Bool

/-- Modelled from the spec: `DSNAuth.validate_key` of the absent
`src/src/receiver/auth.py`, following the spec's validation policy —
when `auth_required` is false any extracted or absent key passes; when
it is true and the allow-list is empty any non-empty key passes;
otherwise the key must be member-equal to an allow-list entry.  The
constant-time execution of the comparison is a timing property with no
functional content; member equality models its result. -/
def validate_key (cfg : Config) (key : Option String) : Bool :=
  if ¬cfg.auth_required then true
  else
    match key with
    | none => false
    | some s =>
      if cfg.allowed_keys.isEmpty then s != ""
      else cfg.allowed_keys.contains s

end DSNAuth

/-!
## Event decoder (`src/src/receiver/event_parser.py`)

`EventParser.parse` first runs `orjson.loads`; that boundary is
abstracted as `DecodedBody` (empty/whitespace body, undecodable bytes,
or a decoded JSON value).  The pydantic validation of `SentryEvent`
raises `ValidationError` (a `ValueError`, so caught by `parse`) when a
recognized field has an ill-typed value; `buildEvent` returns `none` in
exactly that case.
-/

/-- Outcome of reading the payload bytes:`empty` for an empty or
whitespace-only body, `invalid` when `orjson.loads` raises, `json v`
for a decoded value. -/
inductive DecodedBody where
  | empty : DecodedBody
  | invalid : DecodedBody
  | json (v : JVal) : DecodedBody

namespace EventParser

/-- Parse an optionally signed run of digits as an integer (the
integral fragment of Python `float(s)`; non-integral floats are outside
the integer timestamp model). -/
def parseIntString (s : String) : Option Int :=
  match s.data with
  | [] => none
  | '-' :: rest =>
    if rest ≠ [] ∧ rest.all Char.isDigit then
      some (-(rest.foldl (fun a c => a * 10 + (c.toNat - 48)) 0 : Nat))
    else none
  | cs =>
    if cs.all Char.isDigit then
      some ((cs.foldl (fun a c => a * 10 + (c.toNat - 48)) 0 : Nat))
    else none

/-- `dt.timestamp()` in whole seconds: epoch milliseconds (shifted by
the offset for aware values; naive values are taken as UTC, the
container's assumed local time) divided by 1000. -/
def dtTimestampSec (dt : DT) : Int :=
  dt.ms.fdiv 1000

/-- `convert_timestamp`: numbers pass through as floats (`bool` is an
`int` subclass); strings are tried as ISO-8601 (after replacing `"Z"`)
and then as a float literal; everything else becomes `None`. -/
def convert_timestamp : JVal → Option Int
  | .null => none
  | .int n => some n
  | .bool b => some (if b then 1 else 0)
  | .str s =>
    match fromisoformat (replaceZ s) with
    | some dt => some (dtTimestampSec dt)
    | none => parseIntString s
  | _ => none

/-- The recognized top-level field names of `SentryEvent`. -/
def recognizedKeys : List String :=
  ["event_id", "timestamp", "platform", "level", "logger", "transaction",
   "server_name", "release", "dist", "environment", "message", "logentry",
   "exception", "user", "request", "contexts", "tags", "extra",
   "fingerprint", "breadcrumbs", "sdk", "modules"]

/-- Validate an `Optional[str]` field (pydantic v2 does not coerce
non-strings). -/
def fieldOptStr (kvs : List (String × JVal)) (k : String)
    (dflt : Option String) : Option (Option String) :=
  match lookupJ kvs k with
  | none => some dflt
  | some .null => some none
  | some (.str s) => some (some s)
  | some _ => none

/-- Validate a required `str` field with a default. -/
def fieldStr (kvs : List (String × JVal)) (k : String) (dflt : String) :
    Option String :=
  match lookupJ kvs k with
  | none => some dflt
  | some (.str s) => some s
  | some _ => none

/-- Validate an `Optional[dict]` field. -/
def fieldOptObj (kvs : List (String × JVal)) (k : String) :
    Option (Option (List (String × JVal))) :=
  match lookupJ kvs k with
  | none => some none
  | some .null => some none
  | some (.obj o) => some (some o)
  | some _ => none

/-- Validate an `Optional[Dict[str, str]]` field. -/
def fieldOptStrMap (kvs : List (String × JVal)) (k : String) :
    Option (Option (List (String × String))) :=
  match lookupJ kvs k with
  | none => some none
  | some .null => some none
  | some (.obj o) =>
    ((o.mapM (fun p =>
      match p.2 with
      | .str s => some (p.1, s)
      | _ => none) : Option (List (String × String)))).map some
  | some _ => none

/-- Validate an `Optional[List[str]]` field. -/
def fieldOptStrList (kvs : List (String × JVal)) (k : String) :
    Option (Option (List String)) :=
  match lookupJ kvs k with
  | none => some none
  | some .null => some none
  | some (.arr xs) =>
    ((xs.mapM (fun v =>
      match v with
      | .str s => some s
      | _ => none) : Option (List String))).map some
  | some _ => none

end EventParser

end Sentrel

namespace Sentrel

namespace EventParser

end EventParser

end Sentrel

namespace Sentrel

namespace EventParser

/-- `SentryUser(**u)` (extra keys ignored, pydantic v2 default). -/
def buildUser (u : List (String × JVal)) : Option SentryUser :=
  match fieldOptStr u "id" none, fieldOptStr u "email" none,
    fieldOptStr u "username" none, fieldOptStr u "ip_address" none,
    fieldOptStr u "name" none with
  | some id, some email, some username, some ip_address, some nm =>
    some { id := id, email := email, username := username,
           ip_address := ip_address, name := nm }
  | _, _, _, _, _ => none

/-- `SentryRequest(**r)`. -/
def buildRequest (r : List (String × JVal)) : Option SentryRequest :=
  match fieldOptStr r "url" none, fieldOptStr r "method" none,
    fieldOptStrMap r "headers", fieldOptStr r "query_string" none,
    fieldOptStrMap r "env" with
  | some url, some method, some headers, some query_string, some env =>
    some { url := url, method := method, headers := headers,
           query_string := query_string, data := lookupJ r "data", env := env }
  | _, _, _, _, _ => none

/-- The pydantic validation of the `user` field after `parse`'s
pre-coercion (`SentryUser(**data["user"])` for a dict). -/
def fieldUser (kvs : List (String × JVal)) : Option (Option SentryUser) :=
  match lookupJ kvs "user" with
  | none => some none
  | some .null => some none
  | some (.obj u) => (buildUser u).map some
  | some _ => none

/-- The pydantic validation of the `request` field after `parse`'s
pre-coercion. -/
def fieldRequest (kvs : List (String × JVal)) : Option (Option SentryRequest) :=
  match lookupJ kvs "request" with
  | none => some none
  | some .null => some none
  | some (.obj r) => (buildRequest r).map some
  | some _ => none

/-- The pre-converted `timestamp` field (`convert_timestamp` never
raises, so this field never fails validation). -/
def fieldTimestamp (kvs : List (String × JVal)) : Option Int :=
  match lookupJ kvs "timestamp" with
  | none => none
  | some v => convert_timestamp v

/-- `SentryEvent(**data)` after `parse`'s pre-processing (timestamp
conversion and user/request coercion): `none` models a
`ValidationError`. -/
def buildEvent (kvs : List (String × JVal)) : Option SentryEvent :=
  match fieldOptStr kvs "event_id" none, fieldOptStr kvs "platform" none,
    fieldStr kvs "level" "error", fieldOptStr kvs "logger" none,
    fieldOptStr kvs "transaction" none, fieldOptStr kvs "server_name" none,
    fieldOptStr kvs "release" none, fieldOptStr kvs "dist" none,
    fieldOptStr kvs "environment" (some "production"),
    fieldOptStr kvs "message" none, fieldOptObj kvs "logentry",
    fieldOptObj kvs "exception", fieldUser kvs, fieldRequest kvs,
    fieldOptObj kvs "contexts", fieldOptStrMap kvs "tags",
    fieldOptObj kvs "extra", fieldOptStrList kvs "fingerprint",
    fieldOptObj kvs "breadcrumbs", fieldOptObj kvs "sdk",
    fieldOptStrMap kvs "modules" with
  | some event_id, some platform, some level, some lg, some transaction,
    some server_name, some release, some dist, some environment,
    some message, some logentry, some exception, some user, some request,
    some contexts, some tags, some extra, some fingerprint,
    some breadcrumbs, some sdk, some modules =>
    some { event_id := event_id, timestamp := fieldTimestamp kvs,
           platform := platform, level := level, logger := lg,
           transaction := transaction, server_name := server_name,
           release := release, dist := dist, environment := environment,
           message := message, logentry := logentry,
           exception := exception, user := user, request := request,
           contexts := contexts, tags := tags, extra := extra,
           fingerprint := fingerprint, breadcrumbs := breadcrumbs,
           sdk := sdk, modules := modules,
           extras := kvs.filter (fun p => ¬recognizedKeys.contains p.1) }
  | _, _, _, _, _, _, _, _, _, _, _, _, _, _, _, _, _, _, _, _, _ => none

/-- `EventParser.parse`: empty input and `orjson` decode errors yield an
empty `SentryEvent` (so do pydantic `ValidationError`s, which are
`ValueError`s and caught); decoded JSON that is not an object reaches
`SentryEvent(**data)` (or the `in` membership test) and raises an
uncaught `TypeError`. -/
def parse (body : DecodedBody) : Except String SentryEvent :=
  match body with
  | .empty => .ok {}
  | .invalid => .ok {}
  | .json (.obj kvs) => .ok ((buildEvent kvs).getD {})
  | .json _ => .error "TypeError"

end EventParser

end Sentrel

namespace Sentrel

/-- The document of a successful transform (empty on error); used to
state concrete counterexamples compactly. -/
def docOf (r : Except String (List (String × JVal))) : List (String × JVal) :=
  match r with
  | .ok d => d
  | .error _ => []

/-- The logentry part of the amended message specification, from the
spec's words: a truthy logentry yields its message (default `""`,
copied verbatim), otherwise the literal `"No message"`; `none` on
shapes the spec does not describe. -/
def specLogentry (e : SentryEvent) : Option String :=
  match e.logentry with
  | none => some "No message"
  | some kvs =>
    if kvs.isEmpty then some "No message"
    else
      match lookupJ kvs "message" with
      | none => some ""
      | some (.str s) => some s
      | some _ => none

/-- The message/logentry fallback of the amended message
specification. -/
def specMsgFallback (e : SentryEvent) : Option String :=
  match e.message with
  | some m => if m ≠ "" then some m else specLogentry e
  | none => specLogentry e

/-- The exception part of the amended message specification:
`some (some m)` when the exception branch applies and yields `m`,
`some none` when it does not apply (fall through), `none` on shapes the
spec does not describe. -/
def specMsgFromExc (e : SentryEvent) : Option (Option String) :=
  match e.exception with
  | none => some none
  | some kvs =>
    if kvs.isEmpty then some none
    else
      match lookupJ kvs "values" with
      | none => some none
      | some v =>
        if ¬v.truthy then some none
        else
          match v with
          | .arr (.obj exc :: _) =>
            (match lookupJ exc "type" with
             | none => some "Error"
             | some (.str t) => some t
             | some _ => none).bind (fun ty =>
              (match lookupJ exc "value" with
               | none => some ""
               | some .null => some ""
               | some (.str s) => some s
               | some _ => none).map (fun vl =>
                some (if vl = "" then ty else ty ++ ": " ++ vl)))
          | _ => none

/-- The amended message specification (spec's words with the `%s`
substitution removed): priority exception, then `message`, then
`logentry` copied verbatim, else `"No message"`. -/
def specMessage (e : SentryEvent) : Option String :=
  match specMsgFromExc e with
  | some (some m) => some m
  | some none => specMsgFallback e
  | none => none

end Sentrel

namespace Sentrel

namespace EnvelopeParser

theorem extract_len_loop_eq_take (remaining : Nat) (parts : List (List Nat)) :
    (extract_len_loop remaining parts).1 = (joinNL parts).take remaining := by
  induction parts generalizing remaining with
  | nil => simp [extract_len_loop, joinNL]
  | cons part rest ih =>
    by_cases h : remaining ≤ part.length
    · simp only [extract_len_loop, if_pos h, joinNL]
      rw [List.take_append_of_le_length h]
    · simp only [extract_len_loop, if_neg h, joinNL]
      push_neg at h
      rw [List.take_append_eq_append_take, List.take_of_length_le (le_of_lt h)]
      have h2 : remaining - part.length = (remaining - part.length - 1) + 1 := by
        omega
      rw [h2, List.take_succ_cons, ih]
      simp

theorem joinLines_cons_cons (p q : List Nat) (qs : List (List Nat)) :
    joinLines (p :: q :: qs) = p ++ nl :: joinLines (q :: qs) := by
  simp [joinLines, List.intercalate, List.intersperse_cons_cons]

theorem joinNL_eq_joinLines (parts : List (List Nat)) (h : parts ≠ []) :
    joinNL parts = joinLines parts ++ [nl] := by
  induction parts with
  | nil => exact absurd rfl h
  | cons part rest ih =>
    cases rest with
    | nil => simp [joinNL, joinLines, List.intercalate]
    | cons q qs =>
      have hq : q :: qs ≠ [] := by simp
      rw [joinNL, ih hq, joinLines_cons_cons]
      simp

end EnvelopeParser

end Sentrel

namespace Sentrel

/-- Sanity vectors for the `datetime` model: naive and aware rendering,
millisecond fractions, parsing with and without offsets, and a
pre-epoch value. -/
theorem datetime_model_vectors :
    DT.isoformat ⟨1705312800000, none⟩ = "2024-01-15T10:00:00" ∧
    DT.isoformat ⟨1705312800123, none⟩ = "2024-01-15T10:00:00.123000" ∧
    fromisoformat "2024-01-15T10:00:00+00:00" =
      some ⟨1705312800000, some 0⟩ ∧
    fromisoformat "2024-01-15" = some ⟨1705276800000, none⟩ ∧
    fromisoformat "not-a-date" = none ∧
    DT.isoformat ⟨1705312800000 - 3600000, some 60⟩ =
      "2024-01-15T10:00:00+01:00" ∧
    DT.isoformat ⟨-1000, none⟩ = "1969-12-31T23:59:59" := by
  exact ⟨rfl, rfl, rfl, rfl, rfl, rfl, rfl⟩

end Sentrel

namespace Sentrel

/-- Sanity vectors for the SHA-256 model: the standard empty-message
digest, and the digest of the spec's example email after lowercasing. -/
theorem sha256_model_vectors :
    SHA256.hexdigest (utf8Encode "") =
      "e3b0c44298fc1c149afbf4c8996fb92427ae41e4649b934ca495991b7852b855" ∧
    SHA256.hexdigest (utf8Encode "alice@example.com") =
      "ff8d9819fc0e12bf0d24892e45987e249a28dce836a85cad60e28eaaa8c6d976" := by
  exact ⟨rfl, rfl⟩

end Sentrel

namespace Sentrel

theorem lookup_filter_none_of_no_key (q : String × JVal → Bool)
    (l : List (String × JVal)) (k : String) (h : ∀ v, (k, v) ∉ l) :
    List.lookup k (l.filter q) = none := by
  induction l with
  | nil => rfl
  | cons a l ih =>
    have ih' := ih (fun v hv => h v (List.mem_cons_of_mem _ hv))
    obtain ⟨ka, va⟩ := a
    have hk : k ≠ ka := by
      intro hkk
      exact h va (by rw [hkk]; exact List.mem_cons_self _ _)
    rw [List.filter_cons]
    by_cases hq : q (ka, va) = true
    · rw [if_pos hq, List.lookup_cons]
      simp only [beq_eq_false_iff_ne.mpr hk]
      exact ih'
    · rw [if_neg (by simp [hq])]
      exact ih'

theorem lookup_filter_nodup (l : List (String × JVal)) (k : String)
    (hnd : (l.map Prod.fst).Nodup) :
    List.lookup k (l.filter (fun p => !p.2.isNull)) =
      (List.lookup k l).bind (fun v => if v.isNull then none else some v) := by
  induction l with
  | nil => rfl
  | cons a l ih =>
    obtain ⟨ka, va⟩ := a
    simp only [List.map_cons, List.nodup_cons] at hnd
    obtain ⟨hka, hnd'⟩ := hnd
    rw [List.filter_cons]
    by_cases hk : k = ka
    · subst hk
      by_cases hnull : va.isNull = true
      · rw [if_neg (by simp [hnull])]
        rw [List.lookup_cons]
        simp only [beq_self_eq_true, if_true, hnull, Option.some_bind]
        have hnok : ∀ v, (k, v) ∉ l := by
          intro v hv
          exact hka (List.mem_map.mpr ⟨(k, v), hv, rfl⟩)
        exact lookup_filter_none_of_no_key _ l k hnok
      · rw [if_pos (by simp [hnull])]
        rw [List.lookup_cons, List.lookup_cons]
        simp [hnull]
    · rw [List.lookup_cons]
      simp only [beq_eq_false_iff_ne.mpr hk]
      by_cases hnull : va.isNull = true
      · rw [if_neg (by simp [hnull])]
        exact ih hnd'
      · rw [if_pos (by simp [hnull]), List.lookup_cons]
        simp only [beq_eq_false_iff_ne.mpr hk]
        exact ih hnd'

end Sentrel

namespace Sentrel

theorem lookup_assemble_user (e : SentryEvent) (pid nowMs : Int)
    (x : EventTransformer.Extracted) :
    List.lookup "user" (EventTransformer.assemble_document e pid nowMs x) =
      some (.obj (EventTransformer.transform_user e)) := by
  unfold EventTransformer.assemble_document
  rw [lookup_filter_nodup _ _ (by
    simp only [List.map_cons, List.map_nil]
    decide)]
  rfl

theorem lookup_assemble_raw_event (e : SentryEvent) (pid nowMs : Int)
    (x : EventTransformer.Extracted) :
    List.lookup "raw_event" (EventTransformer.assemble_document e pid nowMs x) =
      none := by
  unfold EventTransformer.assemble_document
  rw [lookup_filter_nodup _ _ (by
    simp only [List.map_cons, List.map_nil]
    decide)]
  rfl

theorem transform_ok_elim (e : SentryEvent) (pid nowMs : Int)
    (d : List (String × JVal))
    (ht : EventTransformer.transform e pid nowMs = .ok d) :
    ∃ x, EventTransformer.extract_parts e = .ok x ∧
      d = EventTransformer.assemble_document e pid nowMs x := by
  unfold EventTransformer.transform at ht
  cases hx : EventTransformer.extract_parts e with
  | error s => rw [hx] at ht; exact absurd ht (by simp)
  | ok x =>
    rw [hx] at ht
    injection ht with ht
    exact ⟨x, rfl, ht.symm⟩

/-- C3: the claim says every accepted event's document carries an
`event_id`, freshly generated when the source omitted it.  In the code
the generated id is never written back into the event: the transformer
stores `event.event_id` (`None` for a source without one) and the final
filter then removes the key, so the indexed document has no `event_id`
at all. -/
theorem C3_missing_event_id (e : SentryEvent) (pid nowMs : Int)
    (d : List (String × JVal)) (h : e.event_id = none)
    (ht : EventTransformer.transform e pid nowMs = .ok d) :
    List.lookup "event_id" d = none := by
  obtain ⟨x, _, rfl⟩ := transform_ok_elim e pid nowMs d ht
  unfold EventTransformer.assemble_document
  rw [lookup_filter_nodup _ _ (by
    simp only [List.map_cons, List.map_nil]
    decide)]
  rw [h]
  rfl

/-- Witness for C3 at the empty event (no source `event_id`). -/
theorem C3_missing_event_id_witness :
    List.lookup "event_id" (docOf (EventTransformer.transform {} 1 0)) =
      none :=
  C3_missing_event_id {} 1 0 (docOf (EventTransformer.transform {} 1 0))
    rfl rfl

/-- C4 counterexample: the claim says no top-level field is `None`,
empty string, empty mapping or empty sequence, and that empty nested
objects are omitted; but the transformer only removes `None` values, so
the document of an event with no user and no tags still carries
`user = ` an empty mapping and `tags = ` an empty mapping. -/
theorem C4_counterexample :
    List.lookup "user" (docOf (EventTransformer.transform {} 1 0)) =
      some (JVal.obj []) ∧
    List.lookup "tags" (docOf (EventTransformer.transform {} 1 0)) =
      some (JVal.obj []) := by
  exact ⟨rfl, rfl⟩

/-- C4 amended: the transformer's final filter drops exactly the
top-level `None` values; every surviving value is non-`None`, and empty
nested objects (here the always-present `user` object) are retained,
not omitted. -/
theorem C4_amended (e : SentryEvent) (pid nowMs : Int)
    (d : List (String × JVal))
    (ht : EventTransformer.transform e pid nowMs = .ok d) :
    (∀ p ∈ d, p.2.isNull = false) ∧
    List.lookup "user" d =
      some (.obj (EventTransformer.transform_user e)) := by
  obtain ⟨x, _, rfl⟩ := transform_ok_elim e pid nowMs d ht
  constructor
  · intro p hp
    have hmem := List.of_mem_filter hp
    simpa using hmem
  · exact lookup_assemble_user e pid nowMs x

/-- Witness for C4 at the empty event. -/
theorem C4_amended_witness :
    (∀ p ∈ docOf (EventTransformer.transform {} 1 0), p.2.isNull = false) ∧
    List.lookup "user" (docOf (EventTransformer.transform {} 1 0)) =
      some (.obj (EventTransformer.transform_user {})) :=
  C4_amended {} 1 0 (docOf (EventTransformer.transform {} 1 0)) rfl

/-- C9: the claim says the transformer and enricher never raise for
data reasons — ill-typed optional data degrades to omission.  The
transformer in fact raises on each of the claim's own example shapes: a
non-list `exception.values` (a truthy string is subscripted and its
first character lacks `.get`), a non-dict first exception value, and a
non-dict truthy `contexts.browser`; each raises `AttributeError`
inside `transform`. -/
theorem C9_transform_raises :
    EventTransformer.transform
      { exception := some [("values", .str "abc")] } 1 0 =
        .error "AttributeError" ∧
    EventTransformer.transform
      { exception := some [("values", .arr [.int 0])] } 1 0 =
        .error "AttributeError" ∧
    EventTransformer.transform
      { contexts := some [("browser", .str "Chrome")] } 1 0 =
        .error "AttributeError" := by
  exact ⟨rfl, rfl, rfl⟩

/-- C7: the claim says the event decoder never raises — empty or
unparseable input (including valid JSON that is not an object) yields
an empty RawEvent with level `error`, and unknown fields are retained.
The empty/undecodable cases and field retention hold, but a decoded
JSON value that is not an object reaches `SentryEvent(**data)` and
raises an uncaught `TypeError` (`orjson.JSONDecodeError` and
`ValueError` are the only exceptions caught). -/
theorem C7_nonobject_raises :
    EventParser.parse .empty = .ok {} ∧
    EventParser.parse .invalid = .ok {} ∧
    ({} : SentryEvent).level = "error" ∧
    EventParser.parse (.json (.obj [("weird", .int 1)])) =
      .ok { extras := [("weird", .int 1)] } ∧
    EventParser.parse (.json (.arr [])) = .error "TypeError" := by
  exact ⟨rfl, rfl, rfl, rfl, rfl⟩

end Sentrel

namespace Sentrel

/-- C2 counterexample: the claim says the numeric input `1705312800`
yields `@timestamp = "2024-01-15T10:00:00+00:00"`; the code builds the
value with `datetime.utcfromtimestamp`, which is naive, so `isoformat`
renders it without any UTC offset suffix. -/
theorem C2_counterexample :
    (EventTransformer.normalize_timestamp 0 (.num 1705312800)).isoformat =
      "2024-01-15T10:00:00" ∧
    "2024-01-15T10:00:00" ≠ "2024-01-15T10:00:00+00:00" := by
  exact ⟨rfl, by decide⟩

/-- C2 amended: numbers above `10^12` are epoch milliseconds, others
epoch seconds; strings go through `fromisoformat` after replacing every
`"Z"` with `"+00:00"`, with parse failures falling back to the wall
clock; numeric and fallback results are naive (rendered with no UTC
offset, e.g. `1705312800` renders as `"2024-01-15T10:00:00"`), while
parsed strings keep the offset they carry. -/
theorem C2_amended (nowMs t : Int) (s : String) :
    (t > 10 ^ 12 →
      EventTransformer.normalize_timestamp nowMs (.num t) =
        utcfromtimestampMs t) ∧
    (t ≤ 10 ^ 12 →
      EventTransformer.normalize_timestamp nowMs (.num t) =
        utcfromtimestampMs (t * 1000)) ∧
    (EventTransformer.normalize_timestamp nowMs (.str s) =
      match fromisoformat (replaceZ s) with
      | some dt => dt
      | none => utcfromtimestampMs nowMs) ∧
    (EventTransformer.normalize_timestamp nowMs .none =
      utcfromtimestampMs nowMs) ∧
    (EventTransformer.normalize_timestamp nowMs (.num 1705312800)).isoformat =
      "2024-01-15T10:00:00" ∧
    (EventTransformer.normalize_timestamp nowMs
      (.str "2024-01-15T10:00:00Z")).isoformat =
      "2024-01-15T10:00:00+00:00" := by
  have h5 : EventTransformer.normalize_timestamp nowMs (.num 1705312800) =
      utcfromtimestampMs 1705312800000 := rfl
  have h6 : EventTransformer.normalize_timestamp nowMs
      (.str "2024-01-15T10:00:00Z") = ⟨1705312800000, some 0⟩ := rfl
  refine ⟨?_, ?_, by rfl, by rfl, by rw [h5]; rfl, by rw [h6]; rfl⟩
  · intro h
    simp only [EventTransformer.normalize_timestamp]
    rw [if_pos h]
  · intro h
    simp only [EventTransformer.normalize_timestamp]
    rw [if_neg (by omega)]

/-- Witness for C2 at a milliseconds input, a seconds input, an ISO
string with `Z`, and an unparseable string. -/
theorem C2_amended_witness :
    EventTransformer.normalize_timestamp 0 (.num 1705312800123) =
      utcfromtimestampMs 1705312800123 ∧
    EventTransformer.normalize_timestamp 0 (.num 1705312800) =
      utcfromtimestampMs 1705312800000 :=
  ⟨(C2_amended 0 1705312800123 "").1 (by decide),
    by
      have h := (C2_amended 0 1705312800 "").2.1 (by decide)
      simpa using h⟩

/-- C6: the authenticator's validation policy, settled against the
spec-modelled `validate_key` (the imported `src/src/receiver/auth.py`
is absent from the tree): with `auth_required` false every key, even an
absent one, passes; with `auth_required` true and an empty allow-list
exactly the non-empty keys pass; otherwise a key passes exactly when it
is member-equal to an allow-list entry (constant-time execution of that
comparison is a timing property with no functional content). -/
theorem C6_validation_policy (cfg : DSNAuth.Config) (k : Option String) :
    (cfg.auth_required = false → DSNAuth.validate_key cfg k = true) ∧
    (cfg.auth_required = true → cfg.allowed_keys = [] →
      DSNAuth.validate_key cfg k =
        (match k with | some s => s != "" | none => false)) ∧
    (cfg.auth_required = true → cfg.allowed_keys ≠ [] →
      (DSNAuth.validate_key cfg k = true ↔
        ∃ s, k = some s ∧ s ∈ cfg.allowed_keys)) := by
  refine ⟨?_, ?_, ?_⟩
  · intro h
    simp [DSNAuth.validate_key, h]
  · intro h hk
    cases k with
    | none => simp [DSNAuth.validate_key, h]
    | some s => simp [DSNAuth.validate_key, h, hk]
  · intro h hk
    cases k with
    | none => simp [DSNAuth.validate_key, h]
    | some s =>
      simp [DSNAuth.validate_key, h, List.isEmpty_iff.not.mpr hk,
        List.elem_iff]

/-- Witness for C6: allow-list `["k1"]` with `auth_required` true
accepts exactly the listed key. -/
theorem C6_validation_policy_witness :
    DSNAuth.validate_key ⟨["k1"], true⟩ (some "k1") = true ↔
      ∃ s, (some "k1" : Option String) = some s ∧ s ∈ ["k1"] :=
  (C6_validation_policy ⟨["k1"], true⟩ (some "k1")).2.2 rfl (by decide)

/-- C8 counterexample: the claim says a `length` payload is exactly the
next `length` bytes of input, clamped to the remaining input.  With the
remaining input being the two bytes `"ab"` (no trailing newline) and
`length = 10`, the clamped region is `[97, 98]`, but the line-splitting
decoder re-appends a newline after the consumed line and returns
`[97, 98, 10]` — a byte that is not in the input. -/
theorem C8_counterexample :
    EnvelopeParser.extract_item_payload (some 10) [[97, 98]] 0 =
      ([97, 98, 10], 1) ∧
    (EnvelopeParser.joinLines [[97, 98]]).take 10 = [97, 98] ∧
    ([97, 98, 10] : List Nat) ≠ [97, 98] := by
  exact ⟨rfl, rfl, by decide⟩

/-- C8 amended: a `length` payload equals the first `length` bytes of
the remaining line-joined input with one extra newline byte appended at
its end — so it is byte-identical to the input region whenever `length`
does not over-run the remaining input, and an absent `length` yields
exactly the next line. -/
theorem C8_amended (n : Nat) (lines : List (List Nat)) (start : Nat)
    (h : start < lines.length) :
    (EnvelopeParser.extract_item_payload (some n) lines start).1 =
      (EnvelopeParser.joinLines (lines.drop start) ++
        [EnvelopeParser.nl]).take n ∧
    (n ≤ (EnvelopeParser.joinLines (lines.drop start)).length →
      (EnvelopeParser.extract_item_payload (some n) lines start).1 =
        (EnvelopeParser.joinLines (lines.drop start)).take n) ∧
    (EnvelopeParser.extract_item_payload none lines start).1 =
      (lines.drop start).headD [] := by
  have hlt : ¬lines.length ≤ start := Nat.not_le.mpr h
  have hne : lines.drop start ≠ [] := by
    intro hd
    have := List.drop_eq_nil_iff.mp hd
    omega
  have hkey : (EnvelopeParser.extract_item_payload (some n) lines start).1 =
      (EnvelopeParser.joinLines (lines.drop start) ++
        [EnvelopeParser.nl]).take n := by
    unfold EnvelopeParser.extract_item_payload
    rw [if_neg hlt]
    rw [EnvelopeParser.extract_len_loop_eq_take,
      EnvelopeParser.joinNL_eq_joinLines _ hne]
  refine ⟨hkey, ?_, ?_⟩
  · intro hn
    rw [hkey, List.take_append_of_le_length hn]
  · unfold EnvelopeParser.extract_item_payload
    rw [if_neg hlt]

/-- Witness for C8: a two-line remainder with `length = 3` spanning the
embedded newline. -/
theorem C8_amended_witness :
    (EnvelopeParser.extract_item_payload (some 3) [[97], [98]] 0).1 =
      (EnvelopeParser.joinLines ([[97], [98]].drop 0) ++
        [EnvelopeParser.nl]).take 3 :=
  (C8_amended 3 [[97], [98]] 0 (by decide)).1

end Sentrel

namespace Sentrel

theorem transform_user_lookup_email (e : SentryEvent) :
    List.lookup "email" (EventTransformer.transform_user e) = none := by
  unfold EventTransformer.transform_user
  cases e.user with
  | none => rfl
  | some u =>
    obtain ⟨uid, uem, uun, uip, unm⟩ := u
    cases uid <;> cases uem <;> cases uun <;> cases uip <;>
      simp [List.lookup_cons] <;> aesop

theorem transform_user_lookup_email_hash (u : SentryUser) (e : SentryEvent)
    (em : String) (hu : e.user = some u) (hem : u.email = some em)
    (hne : em ≠ "") :
    List.lookup "email_hash" (EventTransformer.transform_user e) =
      some (.str (EventTransformer.email_hash em)) := by
  obtain ⟨uid, uem, uun, uip, unm⟩ := u
  simp only at hem
  subst hem
  cases uid with
  | none =>
    simp [EventTransformer.transform_user, hu, List.lookup_cons, hne]
  | some s =>
    by_cases hs : s = ""
    · subst hs
      simp [EventTransformer.transform_user, hu, List.lookup_cons, hne]
    · simp [EventTransformer.transform_user, hu, List.lookup_cons, hne, hs]

/-- C1 counterexample: the claim fixes the email hash of
`"Alice@Example.COM"` at `"68a9f54521cff965"` and says the raw email
appears nowhere in the document.  The code's hash of the lowercased
email is `"ff8d9819fc0e12bf"`, and an event that also carries the email
in its `message` field gets it copied verbatim into the document. -/
theorem C1_counterexample :
    EventTransformer.email_hash "Alice@Example.COM" = "ff8d9819fc0e12bf" ∧
    "ff8d9819fc0e12bf" ≠ "68a9f54521cff965" ∧
    List.lookup "user"
      (docOf (EventTransformer.transform
        { user := some { email := some "Alice@Example.COM" },
          message := some "Alice@Example.COM" } 1 0)) =
      some (.obj [("email_hash", .str "ff8d9819fc0e12bf")]) ∧
    List.lookup "message"
      (docOf (EventTransformer.transform
        { user := some { email := some "Alice@Example.COM" },
          message := some "Alice@Example.COM" } 1 0)) =
      some (.str "Alice@Example.COM") := by
  exact ⟨rfl, by decide, rfl, rfl⟩

/-- C1 amended: for every event with a non-empty `user.email`, the
document's user object carries `email_hash`, the first 16 hex
characters of SHA-256 of the lowercased email bytes (for
`"Alice@Example.COM"` that is `"ff8d9819fc0e12bf"`), and carries no
`email` key; the email itself is never copied into the user object,
though fields copied verbatim from other parts of the event (such as
`message`) may still contain it. -/
theorem C1_amended (e : SentryEvent) (pid nowMs : Int) (u : SentryUser)
    (em : String) (d : List (String × JVal)) (hu : e.user = some u)
    (hem : u.email = some em) (hne : em ≠ "")
    (ht : EventTransformer.transform e pid nowMs = .ok d) :
    List.lookup "user" d =
      some (.obj (EventTransformer.transform_user e)) ∧
    List.lookup "email_hash" (EventTransformer.transform_user e) =
      some (.str (EventTransformer.email_hash em)) ∧
    List.lookup "email" (EventTransformer.transform_user e) = none := by
  obtain ⟨x, _, rfl⟩ := transform_ok_elim e pid nowMs d ht
  exact ⟨lookup_assemble_user e pid nowMs x,
    transform_user_lookup_email_hash u e em hu hem hne,
    transform_user_lookup_email e⟩

/-- Witness for C1 at the spec's own example email. -/
theorem C1_amended_witness :
    List.lookup "email_hash"
      (EventTransformer.transform_user
        { user := some { email := some "Alice@Example.COM" } }) =
      some (.str (EventTransformer.email_hash "Alice@Example.COM")) :=
  (C1_amended { user := some { email := some "Alice@Example.COM" } } 1 0
    { email := some "Alice@Example.COM" } "Alice@Example.COM"
    (docOf (EventTransformer.transform
      { user := some { email := some "Alice@Example.COM" } } 1 0))
    rfl rfl (by decide) rfl).2.1

/-- C10: on every document the transformer produces, the enricher's
user-agent step is the identity — the transformer never emits a
`raw_event` key and `_extract_user_agent` looks only there, so
`browser` / `os` / `device` are never populated from the request's
`User-Agent` header. -/
theorem C10_ua_step_noop (uaAvail : Bool)
    (parse : String → EventEnricher.UAParsed) (e : SentryEvent)
    (pid nowMs : Int) (d : List (String × JVal))
    (ht : EventTransformer.transform e pid nowMs = .ok d) :
    EventEnricher.enrich_user_agent uaAvail parse d = .ok d := by
  obtain ⟨x, _, rfl⟩ := transform_ok_elim e pid nowMs d ht
  have hraw := lookup_assemble_raw_event e pid nowMs x
  have hex : EventEnricher.extract_user_agent
      (EventTransformer.assemble_document e pid nowMs x) = .ok .null := by
    unfold EventEnricher.extract_user_agent
    have : getJD (EventTransformer.assemble_document e pid nowMs x)
        "raw_event" (.obj []) = .obj [] := by
      unfold getJD lookupJ
      rw [hraw]
      rfl
    rw [this]
    rfl
  unfold EventEnricher.enrich_user_agent
  split
  · rfl
  · split
    · rfl
    · rw [hex]
      rfl

/-- Witness for C10 at the empty event with an always-`Other`
parser. -/
theorem C10_ua_step_noop_witness :
    EventEnricher.enrich_user_agent true
      (fun _ => ⟨"Other", "", "Other", "", "Other", none, none⟩)
      (docOf (EventTransformer.transform {} 1 0)) =
      .ok (docOf (EventTransformer.transform {} 1 0)) :=
  C10_ua_step_noop true _ {} 1 0 _ rfl

end Sentrel

namespace Sentrel

theorem specMsgFromExc_none_excValues (e : SentryEvent)
    (h : specMsgFromExc e = some none) :
    EventTransformer.excValues e = none := by
  unfold specMsgFromExc at h
  unfold EventTransformer.excValues
  cases hex : e.exception with
  | none => rfl
  | some kvs =>
    simp only [hex] at h ⊢
    by_cases hemp : kvs.isEmpty
    · simp [JVal.truthy, hemp]
    · rw [if_neg hemp] at h
      simp only [JVal.truthy, hemp, Bool.not_false, if_true]
      cases hv : lookupJ kvs "values" with
      | none =>
        simp [getJD, hv, JVal.truthy]
      | some v =>
        simp only [hv] at h
        by_cases htr : v.truthy
        · rw [if_neg (by simp [htr])] at h
          exfalso
          cases v with
          | arr xs =>
            cases xs with
            | nil => simp [JVal.truthy] at htr
            | cons hd tl =>
              cases hd with
              | obj exc =>
                dsimp only [] at h
                cases hty : lookupJ exc "type" with
                | none =>
                  rw [hty] at h
                  cases hvl : lookupJ exc "value" with
                  | none => rw [hvl] at h; simp at h
                  | some w => rw [hvl] at h; cases w <;> simp at h
                | some tv =>
                  rw [hty] at h
                  cases tv <;> simp at h
              | null => simp at h
              | bool b => simp at h
              | int n => simp at h
              | str s => simp at h
              | arr ys => simp at h
          | null => simp [JVal.truthy] at htr
          | bool b => simp at h
          | int n => simp at h
          | str s => simp at h
          | obj o => simp at h
        · have hv' : List.lookup "values" kvs = some v := hv
          have h2 : getJD kvs "values" JVal.null = v := by
            simp [getJD, lookupJ, hv']
          rw [h2]
          have htr' : v.truthy = false := by simpa using htr
          show (if v.truthy = true then some v else none) = none
          rw [htr']
          simp

end Sentrel

namespace Sentrel

theorem specLogentry_extract (e : SentryEvent) (m : String)
    (h : specLogentry e = some m) :
    EventTransformer.logentryFallback e = .str m := by
  unfold specLogentry at h
  unfold EventTransformer.logentryFallback
  cases hl : e.logentry with
  | none =>
    simp only [hl] at h
    injection h with h
    rw [h]
  | some kvs =>
    simp only [hl] at h ⊢
    by_cases hemp : kvs.isEmpty
    · rw [if_pos hemp] at h
      injection h with h
      simp [JVal.truthy, hemp, h]
    · rw [if_neg hemp] at h
      simp only [JVal.truthy, hemp, Bool.not_false, if_true]
      cases hmm : lookupJ kvs "message" with
      | none =>
        rw [hmm] at h
        injection h with h
        have hmm' : List.lookup "message" kvs = none := hmm
        simp [getJD, lookupJ, hmm', h]
      | some w =>
        rw [hmm] at h
        have hmm' : List.lookup "message" kvs = some w := hmm
        cases w <;> simp at h
        simp [getJD, lookupJ, hmm', h]

theorem specMsgFallback_extract (e : SentryEvent) (m : String)
    (hexc : EventTransformer.excValues e = none)
    (h : specMsgFallback e = some m) :
    EventTransformer.extract_message e = .ok (.str m) := by
  unfold EventTransformer.extract_message
  simp only [hexc]
  unfold specMsgFallback at h
  cases hm : e.message with
  | some m' =>
    simp only [hm] at h ⊢
    by_cases hne : m' = ""
    · subst hne
      rw [if_neg (by simp)] at h
      rw [if_neg (by simp)]
      rw [specLogentry_extract e m h]
      rfl
    · rw [if_pos hne] at h
      injection h with h
      subst h
      rw [if_pos hne]
      rfl
  | none =>
    simp only [hm] at h ⊢
    rw [specLogentry_extract e m h]
    rfl

end Sentrel

namespace Sentrel

theorem specMsgFromExc_some_extract (e : SentryEvent) (mm : String)
    (hfe : specMsgFromExc e = some (some mm)) :
    EventTransformer.extract_message e = .ok (.str mm) := by
  unfold specMsgFromExc at hfe
  cases hex : e.exception with
  | none => simp [hex] at hfe
  | some kvs =>
    simp only [hex] at hfe
    by_cases hemp : kvs.isEmpty
    · simp [hemp] at hfe
    · rw [if_neg hemp] at hfe
      cases hv : lookupJ kvs "values" with
      | none => simp only [hv] at hfe; simp at hfe
      | some v =>
        simp only [hv] at hfe
        by_cases htr : v.truthy = true
        · rw [if_neg (by simp [htr])] at hfe
          have hev : EventTransformer.excValues e = some v := by
            unfold EventTransformer.excValues
            simp only [hex]
            have houter : (JVal.obj kvs).truthy = true := by
              simp [JVal.truthy, hemp]
            rw [if_pos houter]
            have hv' : List.lookup "values" kvs = some v := hv
            simp [getJD, lookupJ, hv', htr]
          unfold EventTransformer.extract_message
          rw [hev]
          dsimp only []
          cases v with
          | arr xs =>
            cases xs with
            | nil => simp [JVal.truthy] at htr
            | cons hd tl =>
              cases hd with
              | obj exc =>
                dsimp only [] at hfe
                have hsub : pySubscript0 (.arr (.obj exc :: tl)) =
                    .ok (.obj exc) := rfl
                cases hty : lookupJ exc "type" with
                | none =>
                  rw [hty] at hfe
                  have hty' : List.lookup "type" exc = none := hty
                  have hg : pyGet (.obj exc) "type" (.str "Error") =
                      .ok (.str "Error") := by
                    simp [pyGet, getJD, lookupJ, hty']
                  cases hvl : lookupJ exc "value" with
                  | none =>
                    rw [hvl] at hfe
                    simp at hfe
                    have hvl' : List.lookup "value" exc = none := hvl
                    have hgv : pyGet (.obj exc) "value" (.str "") =
                        .ok (.str "") := by
                      simp [pyGet, getJD, lookupJ, hvl']
                    subst hfe
                    simp [hsub, hg, hgv, bind, Except.bind, pure, Except.pure, JVal.truthy, pyStrOf]
                  | some w =>
                    rw [hvl] at hfe
                    have hvl' : List.lookup "value" exc = some w := hvl
                    have hgv : pyGet (.obj exc) "value" (.str "") =
                        .ok w := by
                      simp [pyGet, getJD, lookupJ, hvl']
                    cases w with
                    | null =>
                      simp at hfe
                      subst hfe
                      simp [hsub, hg, hgv, bind, Except.bind, pure, Except.pure, JVal.truthy, pyStrOf]
                    | bool b => simp at hfe
                    | int n => simp at hfe
                    | arr ys => simp at hfe
                    | obj o => simp at hfe
                    | str s =>
                      by_cases hs : s = ""
                      · subst hs
                        simp at hfe
                        subst hfe
                        simp [hsub, hg, hgv, bind, Except.bind, pure, Except.pure, JVal.truthy, pyStrOf]
                      · simp [hs] at hfe
                        subst hfe
                        simp [hsub, hg, hgv, bind, Except.bind, pure, Except.pure, JVal.truthy, hs, pyStrOf]
                | some tv =>
                  rw [hty] at hfe
                  have hty' : List.lookup "type" exc = some tv := hty
                  cases tv with
                  | null => simp at hfe
                  | bool b => simp at hfe
                  | int n => simp at hfe
                  | arr ys => simp at hfe
                  | obj o => simp at hfe
                  | str t =>
                    have hg : pyGet (.obj exc) "type" (.str "Error") =
                        .ok (.str t) := by
                      simp [pyGet, getJD, lookupJ, hty']
                    cases hvl : lookupJ exc "value" with
                    | none =>
                      rw [hvl] at hfe
                      simp at hfe
                      have hvl' : List.lookup "value" exc = none := hvl
                      have hgv : pyGet (.obj exc) "value" (.str "") =
                          .ok (.str "") := by
                        simp [pyGet, getJD, lookupJ, hvl']
                      subst hfe
                      simp [hsub, hg, hgv, bind, Except.bind, pure, Except.pure, JVal.truthy, pyStrOf]
                    | some w =>
                      rw [hvl] at hfe
                      have hvl' : List.lookup "value" exc = some w := hvl
                      have hgv : pyGet (.obj exc) "value" (.str "") =
                          .ok w := by
                        simp [pyGet, getJD, lookupJ, hvl']
                      cases w with
                      | null =>
                        simp at hfe
                        subst hfe
                        simp [hsub, hg, hgv, bind, Except.bind, pure, Except.pure, JVal.truthy, pyStrOf]
                      | bool b => simp at hfe
                      | int n => simp at hfe
                      | arr ys => simp at hfe
                      | obj o => simp at hfe
                      | str s =>
                        by_cases hs : s = ""
                        · subst hs
                          simp at hfe
                          subst hfe
                          simp [hsub, hg, hgv, bind, Except.bind, pure, Except.pure, JVal.truthy, pyStrOf]
                        · simp [hs] at hfe
                          subst hfe
                          simp [hsub, hg, hgv, bind, Except.bind, pure, Except.pure, JVal.truthy, hs, pyStrOf]
              | null => simp at hfe
              | bool b => simp at hfe
              | int n => simp at hfe
              | str s => simp at hfe
              | arr ys => simp at hfe
          | null => simp [JVal.truthy] at htr
          | bool b => simp at hfe
          | int n => simp at hfe
          | str s => simp at hfe
          | obj o => simp at hfe
        · rw [if_pos (by simpa using htr)] at hfe
          simp at hfe

end Sentrel

namespace Sentrel

/-- C5 counterexample: the claim says a logentry whose message contains
`%s` placeholders and whose params are present yields the positional
substitution; the transformer's `_extract_message` returns the logentry
message verbatim, with no substitution (the parser's unused
`extract_message` helper is the one that substitutes). -/
theorem C5_counterexample :
    EventTransformer.extract_message
      { logentry := some [("message", .str "hello %s"),
        ("params", .arr [.str "world"])] } = .ok (.str "hello %s") ∧
    "hello %s" ≠ "hello world" := by
  exact ⟨rfl, by decide⟩

/-- C5 amended: the transformer's message follows the priority
exception, then `message`, then `logentry` — the exception branch
renders `type: value` when the first value's `value` is truthy and the
bare `type` (default `"Error"`) otherwise, the logentry branch returns
the logentry message verbatim (default `""`, no `%s` substitution), and
an event with none of the sources yields the literal `"No message"`:
on every event shape the specification describes, the code computes the
specified message. -/
theorem C5_amended (e : SentryEvent) (m : String)
    (h : specMessage e = some m) :
    EventTransformer.extract_message e = .ok (.str m) := by
  unfold specMessage at h
  cases hfe : specMsgFromExc e with
  | none => simp [hfe] at h
  | some o =>
    cases o with
    | some mm =>
      simp only [hfe] at h
      injection h with h
      subst h
      exact specMsgFromExc_some_extract e mm hfe
    | none =>
      simp only [hfe] at h
      exact specMsgFallback_extract e m
        (specMsgFromExc_none_excValues e hfe) h

/-- Witness for C5 at the spec's own exception example
(`ValueError: bad`) and at an empty event (`No message`). -/
theorem C5_amended_witness :
    EventTransformer.extract_message
      { exception := some [("values", .arr [.obj
        [("type", .str "ValueError"), ("value", .str "bad")]])] } =
      .ok (.str "ValueError: bad") ∧
    EventTransformer.extract_message {} = .ok (.str "No message") :=
  ⟨C5_amended { exception := some [("values", .arr [.obj
      [("type", .str "ValueError"), ("value", .str "bad")]])] }
      "ValueError: bad" rfl,
    C5_amended {} "No message" rfl⟩

end Sentrel
